import Mathlib

/-!
Shallow embedding of the EchoPi ranging engine (repository `ipmgroup/EchoPi`).

Python sources embedded here:
- `src/echopi/dsp/correlation.py` : `cross_correlation`, `find_peaks`,
  `parabolic_interpolate`
- `src/echopi/dsp/chirp.py`       : `normalize`
- `src/echopi/utils/distance.py`  : validation, windowed peak selection,
  distance conversion and smoothing of `measure_distance`
- `src/echopi/utils/latency.py`   : `_pick_latency_from_recording`,
  aggregation tail of `measure_latency`
- `src/echopi/io/audio.py`, `src/echopi/io/audio_safe.py` : the two
  `get_global_stream` singletons and `play_and_record`

Machine floats are modelled as exact rationals; numpy arrays as `List ℚ`.
-/

namespace EchoPi

/-- Python `int(q)` on a float: truncation toward zero. -/
def pyInt (q : ℚ) : ℤ :=
  if 0 ≤ q then ⌊q⌋ else -⌊-q⌋

/-- Python slice `l[a:b]` (step 1) with full negative-index semantics. -/
def pySlice (l : List ℚ) (a b : ℤ) : List ℚ :=
  let n : ℤ := l.length
  let a' : ℕ := (if a < 0 then max 0 (n + a) else min a n).toNat
  let b' : ℕ := (if b < 0 then max 0 (n + b) else min b n).toNat
  (l.take b').drop a'

/-- `np.argmax`: index of the first occurrence of the maximum value
(0 on an empty array, where numpy would raise). -/
def argmaxIdx : List ℚ → ℕ
  | [] => 0
  | x :: xs => if xs.all (fun y => decide (y ≤ x)) then 0 else argmaxIdx xs + 1

/-- `np.max` of a (nonempty) array. -/
def npMax (l : List ℚ) : ℚ := l.foldl max (l.headD 0)

/-- Slice assignment `corr_copy[a:b] = 0` (indices `a ≤ i < b` zeroed). -/
def zeroRange (l : List ℚ) (a b : ℕ) : List ℚ :=
  (List.range l.length).map (fun i => if a ≤ i ∧ i < b then 0 else l.getD i 0)

/-- Loop body of `find_peaks` in `dsp/correlation.py`: up to `n` rounds of
take the global maximum, stop if it is `≤ 0`, record it and zero
`corr_copy[max(0, idx - md) : min(len, idx + md)]`. -/
def findPeaksGo : ℕ → List ℚ → ℕ → List (ℕ × ℚ)
  | 0, _, _ => []
  | n + 1, corr, md =>
    let idx := argmaxIdx corr
    let v := corr.getD idx 0
    if v ≤ 0 then []
    else (idx, v) :: findPeaksGo n (zeroRange corr (idx - md) (min corr.length (idx + md))) md

/-- `find_peaks(corr, num_peaks, min_distance)` from `dsp/correlation.py`.
On an empty array with at least one requested peak, `np.argmax` raises;
this is modelled as an error value. -/
def find_peaks (corr : List ℚ) (numPeaks minDistance : ℕ) :
    Except String (List (ℕ × ℚ)) :=
  if corr.isEmpty ∧ 0 < numPeaks then
    Except.error ("attempt to get argmax of an empty sequence")
  else
    Except.ok (findPeaksGo numPeaks corr minDistance)

/-- Fuel-based `ceil(log2 n)` (the fuel argument only drives recursion;
`clog2Fuel n n` computes the exact value for every `n`). -/
def clog2Fuel : ℕ → ℕ → ℕ
  | 0, _ => 0
  | fuel + 1, n => if n ≤ 1 then 0 else clog2Fuel fuel ((n + 1) / 2) + 1

/-- `n_fft = 2 ** int(np.ceil(np.log2(n)))` in `cross_correlation`. -/
def nextPow2 (n : ℕ) : ℕ := 2 ^ clog2Fuel n n

/-- Exact-arithmetic value of `np.fft.ifft(fft_sig * np.conj(fft_ref)).real[k]`
for real inputs zero-padded to length `N`: by the convolution theorem this
FFT composite equals the circular cross-correlation
`sum over l of ref[l] * sig[(l + k) mod N]` of the zero-padded sequences. -/
def circCorr (ref sig : List ℚ) (N k : ℕ) : ℚ :=
  ((List.range N).map (fun l => ref.getD l 0 * sig.getD ((l + k) % N) 0)).sum

/-- `cross_correlation(ref, sig)` from `dsp/correlation.py`: FFT-based
correlation trimmed to `n = len(sig) + len(ref) - 1` samples, returning
`(peak_idx, peak, corr)` with `peak_idx = np.argmax(corr)`. -/
def cross_correlation (ref sig : List ℚ) : ℕ × ℚ × List ℚ :=
  let n := sig.length + ref.length - 1
  let nfft := nextPow2 n
  let corrFull := (List.range nfft).map (fun k => circCorr ref sig nfft k)
  let corr := corrFull.take n
  let pidx := argmaxIdx corr
  (pidx, corr.getD pidx 0, corr)

/-- `left = corr[index - 1] if index - 1 >= 0 else corr[index]` in
`parabolic_interpolate`. -/
def leftOf (corr : List ℚ) (index : ℕ) : ℚ :=
  if 1 ≤ index then corr.getD (index - 1) 0 else corr.getD index 0

/-- `right = corr[index + 1] if index + 1 < len(corr) else corr[index]` in
`parabolic_interpolate`. -/
def rightOf (corr : List ℚ) (index : ℕ) : ℚ :=
  if index + 1 < corr.length then corr.getD (index + 1) 0 else corr.getD index 0

/-- `denom = 2 * (left - 2 * center + right)` in `parabolic_interpolate`. -/
def denomOf (corr : List ℚ) (index : ℕ) : ℚ :=
  2 * (leftOf corr index - 2 * corr.getD index 0 + rightOf corr index)

/-- `parabolic_interpolate(corr, index)` from `dsp/correlation.py`. -/
def parabolic_interpolate (corr : List ℚ) (index : ℕ) : ℚ × ℚ :=
  let left := leftOf corr index
  let center := corr.getD index 0
  let right := rightOf corr index
  let denom := 2 * (left - 2 * center + right)
  if |denom| < 1 / 10 ^ 12 then ((index : ℚ), center)
  else
    let delta := (left - right) / denom
    ((index : ℚ) + delta, center - (left - right) * delta / 4)

/-- `np.max(np.abs(signal))` (0 on an empty array, where numpy raises). -/
def maxAbs (l : List ℚ) : ℚ := l.foldl (fun m x => max m |x|) 0

/-- `normalize(signal, peak)` from `dsp/chirp.py`. The source's final
overflow re-check recomputes the identical expression, a no-op in exact
arithmetic. -/
def normalize (signal : List ℚ) (peak : ℚ) : List ℚ :=
  let maxVal := maxAbs signal
  if maxVal < 1 / 10 ^ 10 then List.replicate signal.length 0
  else signal.map (fun s => s / maxVal * peak)

/-- Insertion step for the sorted order used to model numpy's sort. -/
def insertSorted (x : ℚ) : List ℚ → List ℚ
  | [] => [x]
  | y :: ys => if x ≤ y then x :: y :: ys else y :: insertSorted x ys

/-- Ascending sort of a rational list (models `np.sort`). -/
def sortQ (l : List ℚ) : List ℚ := l.foldr insertSorted []

/-- `np.median`: middle element of the sorted array for odd length, mean of
the two middle elements for even length (0 on an empty array, where numpy
yields NaN). -/
def npMedian (l : List ℚ) : ℚ :=
  let s := sortQ l
  let n := l.length
  if n % 2 = 1 then s.getD (n / 2) 0
  else (s.getD (n / 2 - 1) 0 + s.getD (n / 2) 0) / 2

/-- `np.mean` of a list. -/
def npMean (l : List ℚ) : ℚ := l.sum / l.length

/-- Population variance, the square of `np.std` (default ddof = 0). -/
def popVariance (l : List ℚ) : ℚ :=
  ((l.map (fun x => (x - npMean l) ^ 2)).sum) / l.length

/-- Fields of the record returned by `measure_latency` that the aggregation
tail determines. `np.std` is an irrational square root in general, so its
square (the population variance of the inlier subset) is recorded instead. -/
structure LatencyAggregate where
  latency_seconds : ℚ
  latency_var_seconds : ℚ
  latencies_seconds : List ℚ
  latencies_used_seconds : List ℚ
  latency_raw_median_seconds : ℚ
  latency_mad_seconds : ℚ

/-- Aggregation tail of `measure_latency` in `utils/latency.py` (from
`raw_median_s = np.median(arr)` through the returned record): raw median and
MAD, MAD-based inlier selection, median and variance of the inliers. -/
def aggregateLatencies (arr : List ℚ) : LatencyAggregate :=
  let rawMedian := npMedian arr
  let absDev := arr.map (fun x => |x - rawMedian|)
  let mad := npMedian absDev
  let used :=
    if 0 < mad then arr.filter (fun x => decide (|x - rawMedian| ≤ 7 / 2 * mad))
    else arr
  { latency_seconds := npMedian used
    latency_var_seconds := if 1 < used.length then popVariance used else 0
    latencies_seconds := arr
    latencies_used_seconds := used
    latency_raw_median_seconds := rawMedian
    latency_mad_seconds := mad }

/-- `SPEED_OF_SOUND` dict of `utils/distance.py` combined with the
`.get(medium, SPEED_OF_SOUND["air"])` lookups used throughout. -/
def soundSpeed (medium : String) : ℚ :=
  if medium = "air" then 343 else if medium = "water" then 1480 else 343

/-- `ChirpConfig` from `config.py` (floats as exact rationals). -/
structure ChirpConfig where
  start_freq : ℚ
  end_freq : ℚ
  duration : ℚ
  amplitude : ℚ
  fade_fraction : ℚ

/-- Validation chain at the top of `measure_distance` (`utils/distance.py`),
with `min_distance_m` / `max_distance_m` already resolved from the settings
store (both are floats after resolution). Returns the first raised
`ValueError` message, or `none` when every check passes. -/
def validateMeasureDistance (chirp : ChirpConfig) (filterSize : ℤ)
    (minDistance maxDistance : ℚ) (extraRecordSeconds : Option ℚ) :
    Option String :=
  if chirp.duration ≤ 0 then some ("Chirp duration must be positive")
  else if 1 < chirp.duration then some ("Chirp duration too long")
  else if chirp.start_freq ≤ 0 ∨ chirp.end_freq ≤ 0 then
    some ("Frequencies must be positive")
  else if chirp.end_freq ≤ chirp.start_freq then
    some ("Start frequency must be less than end frequency")
  else if ¬(0 ≤ chirp.amplitude ∧ chirp.amplitude ≤ 1) then
    some ("Amplitude must be in the unit interval")
  else if filterSize < 0 then some ("Filter size must be nonnegative")
  else if minDistance < 0 then some ("min_distance_m must be nonnegative")
  else if maxDistance ≤ 0 then some ("max_distance_m must be positive")
  else if maxDistance ≤ minDistance then
    some ("min_distance_m must be less than max_distance_m")
  else
    match extraRecordSeconds with
    | some e =>
      if e < 0 then some ("extra_record_seconds must be nonnegative") else none
    | none => none

/-- In the source of `measure_distance`, `get_global_stream` and
`play_and_record` (the only audio side effects) appear strictly after the
validation chain, so audio is reached exactly when validation passes. -/
def measureDistanceStartsAudio (chirp : ChirpConfig) (filterSize : ℤ)
    (minDistance maxDistance : ℚ) (extraRecordSeconds : Option ℚ) : Bool :=
  (validateMeasureDistance chirp filterSize minDistance maxDistance
    extraRecordSeconds).isNone

/-- Search-window bounds of the ranging policy in `measure_distance`:
`start_idx`/`end_idx` into the correlation array, including the
degenerate-window fallback that resets `end_idx` to `len(corr) - 2`. -/
def rangingBounds (corrLen refOffset : ℕ) (sampleRate latencyS minDistance : ℚ)
    (maxDistance : Option ℚ) (speed : ℚ) : ℤ × ℤ :=
  let latencySamples : ℚ := latencyS * sampleRate
  let startLag : ℚ :=
    if 0 < minDistance then
      latencySamples + max 50 (2 * minDistance / speed * sampleRate)
    else latencySamples + 50
  let startIdx : ℤ := (refOffset : ℤ) + pyInt startLag
  let endIdx0 : ℤ :=
    match maxDistance with
    | none => (corrLen : ℤ) - 2
    | some md =>
      if md ≤ 0 then (corrLen : ℤ) - 2
      else min ((corrLen : ℤ) - 2) ((refOffset : ℤ) + pyInt (2 * md / speed * sampleRate))
  let endIdx : ℤ := if endIdx0 ≤ startIdx + 2 then (corrLen : ℤ) - 2 else endIdx0
  (startIdx, endIdx)

/-- `corr_window = corr[start_idx:end_idx]` of the ranging policy. -/
def rangingWindow (corr : List ℚ) (refOffset : ℕ)
    (sampleRate latencyS minDistance : ℚ) (maxDistance : Option ℚ)
    (speed : ℚ) : List ℚ :=
  let b := rangingBounds corr.length refOffset sampleRate latencyS minDistance
    maxDistance speed
  pySlice corr b.1 b.2

/-- Peak selection of `measure_distance` after correlation
(`utils/distance.py`): raises `ValueError` when the window is empty,
otherwise multi-peak search with the strong-peak and top-two-closeness
policy, falling back to the window's raw argmax when no peaks are found.
Returns `best_peak_idx`, an index into the full correlation array. -/
def rangingSelect (corr : List ℚ) (refOffset : ℕ)
    (sampleRate latencyS minDistance : ℚ) (maxDistance : Option ℚ)
    (speed : ℚ) : Except String ℤ :=
  let b := rangingBounds corr.length refOffset sampleRate latencyS minDistance
    maxDistance speed
  let startIdx := b.1
  let window := pySlice corr startIdx b.2
  if window = [] then
    Except.error ("Correlation window is empty; check max_distance/latency")
  else
    let peaks := findPeaksGo 15 window 50
    if peaks ≠ [] then
      let maxPeakValue := (peaks.headD (0, 0)).2
      let strongPeaks := peaks.filter (fun p => decide (maxPeakValue * 3 / 10 < p.2))
      if strongPeaks ≠ [] then
        if 1 < strongPeaks.length then
          let p0 := strongPeaks.getD 0 (0, 0)
          let p1 := strongPeaks.getD 1 (0, 0)
          let top2Diff := (p0.2 - p1.2) / p0.2
          if top2Diff < 1 / 5 then
            Except.ok (startIdx + (if p1.1 < p0.1 then p1 else p0).1)
          else Except.ok (startIdx + p0.1)
        else Except.ok (startIdx + (strongPeaks.headD (0, 0)).1)
      else Except.ok (startIdx + (peaks.headD (0, 0)).1)
    else Except.ok (startIdx + argmaxIdx window)

/-- `corr_window` of `_pick_latency_from_recording` (`utils/latency.py`). -/
def latencyWindow (corr : List ℚ) (refOffset : ℕ)
    (sampleRate maxLatencyS minLatencyS : ℚ) : List ℚ :=
  let minLagSamples : ℤ := max 10 (pyInt (minLatencyS * sampleRate))
  let startIdx : ℤ := (refOffset : ℤ) + minLagSamples
  let endIdx : ℤ := min ((corr.length : ℤ) - 2)
    ((refOffset : ℤ) + max 3 (pyInt (maxLatencyS * sampleRate)))
  pySlice corr startIdx endIdx

/-- Peak pick of `_pick_latency_from_recording` (`utils/latency.py`):
noise-floor threshold from median + 8 MAD, earliest strong candidate,
fallback chain ending in the window argmax; when the restricted window is
empty the pick is the argmax of the full correlation array. Returns
`best_peak_idx`. -/
def latencyPick (corr : List ℚ) (refOffset : ℕ)
    (sampleRate maxLatencyS minLatencyS : ℚ) : ℤ :=
  let minLagSamples : ℤ := max 10 (pyInt (minLatencyS * sampleRate))
  let startIdx : ℤ := (refOffset : ℤ) + minLagSamples
  let endIdx : ℤ := min ((corr.length : ℤ) - 2)
    ((refOffset : ℤ) + max 3 (pyInt (maxLatencyS * sampleRate)))
  let window := pySlice corr startIdx endIdx
  if window = [] then (argmaxIdx corr : ℤ)
  else
    let windowMax := npMax window
    let med := npMedian window
    let mad := npMedian (window.map (fun x => |x - med|))
    let threshold := med + 8 * mad
    let peaks := findPeaksGo 200 window 10
    let maxPeak := if peaks ≠ [] then (peaks.headD (0, 0)).2 else windowMax
    let candidates := peaks.filter
      (fun p => decide (threshold ≤ p.2) && decide (maxPeak * 5 / 1000 ≤ p.2))
    if candidates ≠ [] then
      startIdx + ((candidates.foldl (fun m p => min m p.1)
        (candidates.headD (0, 0)).1 : ℕ) : ℤ)
    else
      let candidates2 := peaks.filter (fun p => decide (threshold ≤ p.2))
      if candidates2 ≠ [] then
        startIdx + ((candidates2.foldl (fun m p => min m p.1)
          (candidates2.headD (0, 0)).1 : ℕ) : ℤ)
      else startIdx + argmaxIdx window

/-- The global distance smoothing deque: bounded FIFO with capacity
`maxlen`, newest element at the tail. -/
structure SmoothingState where
  maxlen : ℕ
  data : List ℚ

/-- `set_smoothing_buffer_size(size)`: rebuild the deque with
`maxlen = max(1, size)`, keeping the most recent elements. -/
def setSmoothingBufferSize (st : SmoothingState) (size : ℤ) : SmoothingState :=
  let m : ℕ := (max 1 size).toNat
  { maxlen := m, data := st.data.drop (st.data.length - m) }

/-- `deque.append` with a maxlen: drops the oldest element when full. -/
def smoothingAppend (st : SmoothingState) (x : ℚ) : SmoothingState :=
  let d := st.data ++ [x]
  { maxlen := st.maxlen, data := d.drop (d.length - st.maxlen) }

/-- The fields of the `measure_distance` result record determined by the
conversion-and-smoothing tail. -/
structure MeasurementResult where
  time_of_flight_s : ℚ
  distance_m : ℚ
  smoothed_distance_m : ℚ
  sound_speed : ℚ
  total_time_s : ℚ
  system_latency_s : ℚ

/-- Tail of `measure_distance` (`utils/distance.py`): lag-to-distance
conversion starting from the refined lag, then optional smoothing through
the global deque. -/
def measureDistanceFinish (refinedLag sampleRate latencyS : ℚ)
    (medium : String) (enableSmoothing : Bool) (filterSize : ℤ)
    (st : SmoothingState) : MeasurementResult × SmoothingState :=
  let speed := soundSpeed medium
  let totalTime := refinedLag / sampleRate
  let timeOfFlight := totalTime - latencyS
  let distance := speed * timeOfFlight / 2
  if enableSmoothing ∧ 1 < filterSize then
    let st1 := if st.maxlen ≠ filterSize.toNat then setSmoothingBufferSize st filterSize
      else st
    let st2 := smoothingAppend st1 distance
    let smoothed := if 0 < st2.data.length then st2.data.sum / st2.data.length
      else distance
    ({ time_of_flight_s := timeOfFlight, distance_m := distance,
       smoothed_distance_m := smoothed, sound_speed := speed,
       total_time_s := totalTime, system_latency_s := latencyS }, st2)
  else
    ({ time_of_flight_s := timeOfFlight, distance_m := distance,
       smoothed_distance_m := distance, sound_speed := speed,
       total_time_s := totalTime, system_latency_s := latencyS }, st)

/-- `AudioDeviceConfig` from `config.py` (device ids and requested latency
modelled as optional values). -/
structure AudioDeviceConfig where
  play_device : Option ℤ
  rec_device : Option ℤ
  sample_rate : ℕ
  channels_play : ℕ
  channels_rec : ℕ
  frames_per_buffer : ℕ
  latency : Option ℚ
deriving DecidableEq

/-- The 7-tuple built by `_cfg_signature` in `io/audio.py` (a record with
one field per tuple slot). -/
structure CfgSignature where
  sig_sample_rate : ℕ
  sig_frames_per_buffer : ℕ
  sig_channels_rec : ℕ
  sig_channels_play : ℕ
  sig_rec_device : Option ℤ
  sig_play_device : Option ℤ
  sig_latency : Option ℚ
deriving DecidableEq

/-- `_cfg_signature(cfg)` from `io/audio.py`. -/
def cfgSignature (cfg : AudioDeviceConfig) : CfgSignature :=
  ⟨cfg.sample_rate, cfg.frames_per_buffer, cfg.channels_rec, cfg.channels_play,
   cfg.rec_device, cfg.play_device, cfg.latency⟩

/-- One call of `echopi.io.audio.get_global_stream(cfg)`. The state is the
signature of the currently open session (`none` when no session is open).
Returns the signature of the session handed back to the caller, the new
state, and whether the previously open session was closed during the call
(the close happens before the new session is opened). -/
def getGlobalStreamAudio (cfg : AudioDeviceConfig) (st : Option CfgSignature) :
    CfgSignature × Option CfgSignature × Bool :=
  let sig := cfgSignature cfg
  match st with
  | none => (sig, some sig, false)
  | some old => if old = sig then (old, some old, false) else (sig, some sig, true)

/-- One call of `echopi.io.audio_safe.get_global_stream(cfg)`: the stream is
created once with the first configuration and returned unchanged by every
later call, regardless of the `cfg` argument; nothing is ever closed here.
The state is the configuration of the open stream. -/
def getGlobalStreamSafe (cfg : AudioDeviceConfig)
    (st : Option AudioDeviceConfig) :
    AudioDeviceConfig × Option AudioDeviceConfig :=
  match st with
  | none => (cfg, some cfg)
  | some c => (c, some c)

/-- Sample count of `generate_chirp(cfg, sample_rate)`: `np.linspace` over
`num = int(sample_rate * duration)` points. -/
def chirpLen (sampleRate : ℕ) (duration : ℚ) : ℕ :=
  (pyInt ((sampleRate : ℚ) * duration)).toNat

/-- `PersistentAudioStream.play_and_record` of `io/audio_safe.py`: rejects a
negative `extra_record_seconds`, otherwise returns the single recording
array of `len(play_signal) + int(extra_record_seconds * sample_rate)`
microphone samples (`mic` supplies the hardware input). -/
def safePlayAndRecord (playSignal : List ℚ) (extraRecordSeconds : ℚ)
    (sampleRate : ℕ) (mic : ℕ → ℚ) : Except String (List ℚ) :=
  if extraRecordSeconds < 0 then
    Except.error ("extra_record_seconds must be nonnegative")
  else
    let totalFrames := playSignal.length +
      (pyInt (extraRecordSeconds * sampleRate)).toNat
    Except.ok ((List.range totalFrames).map mic)

/-- Python iterable unpacking `a, b = seq`: succeeds exactly when the
sequence has exactly two elements. -/
def pyUnpack2 (l : List ℚ) : Except String (ℚ × ℚ) :=
  match l with
  | [a, b] => Except.ok (a, b)
  | _ => Except.error ("unpack mismatch")

/-- The audio step of `measure_distance`:
`recorded, tx_sample_index = stream.play_and_record(chirp_tx, extra_record_seconds=extra_rec)`
where `stream` is the `audio_safe` global stream. -/
def measureDistanceAudioStep (chirpTx : List ℚ) (extraRecordSeconds : ℚ)
    (sampleRate : ℕ) (mic : ℕ → ℚ) : Except String (ℚ × ℚ) :=
  (safePlayAndRecord chirpTx extraRecordSeconds sampleRate mic).bind pyUnpack2

/-! ### Library lemmas about the embedded operations -/

lemma argmaxIdx_lt_length : ∀ {l : List ℚ}, l ≠ [] → argmaxIdx l < l.length
  | [], h => absurd rfl h
  | x :: xs, _ => by
    rw [argmaxIdx]
    split
    · simp
    · rename_i hall
      have hxs : xs ≠ [] := by
        rintro rfl
        simp at hall
      have := argmaxIdx_lt_length hxs
      simpa [Nat.succ_lt_succ_iff] using this

lemma getD_le_argmaxIdx : ∀ (l : List ℚ) (j : ℕ), j < l.length →
    l.getD j 0 ≤ l.getD (argmaxIdx l) 0
  | [], j, hj => by simp at hj
  | x :: xs, j, hj => by
    rw [argmaxIdx]
    split
    · rename_i hall
      have hall' : ∀ y ∈ xs, y ≤ x := by
        intro y hy
        exact of_decide_eq_true (List.all_eq_true.mp hall y hy)
      cases j with
      | zero => simp
      | succ k =>
        have hk : k < xs.length := by simpa using hj
        simp only [List.getD_cons_succ, List.getD_cons_zero]
        rw [List.getD_eq_getElem xs 0 hk]
        exact hall' _ (List.getElem_mem hk)
    · rename_i hall
      have hex : ∃ y ∈ xs, x < y := by
        by_contra hno
        push_neg at hno
        exact hall (List.all_eq_true.mpr fun y hy => decide_eq_true (hno y hy))
      have hxs : xs ≠ [] := by
        rintro rfl
        obtain ⟨y, hy, _⟩ := hex
        simp at hy
      cases j with
      | zero =>
        obtain ⟨y, hy, hxy⟩ := hex
        obtain ⟨k, hk, hky⟩ := List.mem_iff_getElem.mp hy
        have h1 : xs.getD k 0 ≤ xs.getD (argmaxIdx xs) 0 := getD_le_argmaxIdx xs k hk
        rw [List.getD_eq_getElem xs 0 hk, hky] at h1
        simp only [List.getD_cons_zero, List.getD_cons_succ]
        exact le_of_lt (lt_of_lt_of_le hxy h1)
      | succ k =>
        have hk : k < xs.length := by simpa using hj
        simp only [List.getD_cons_succ]
        exact getD_le_argmaxIdx xs k hk

lemma zeroRange_length (l : List ℚ) (a b : ℕ) :
    (zeroRange l a b).length = l.length := by
  simp [zeroRange]

lemma zeroRange_getD (l : List ℚ) (a b j : ℕ) (hj : j < l.length) :
    (zeroRange l a b).getD j 0 = if a ≤ j ∧ j < b then 0 else l.getD j 0 := by
  rw [zeroRange, List.getD_eq_getElem _ _ (by simpa using hj)]
  simp

lemma findPeaksGo_length : ∀ (n : ℕ) (corr : List ℚ) (md : ℕ),
    (findPeaksGo n corr md).length ≤ n
  | 0, _, _ => le_refl _
  | n + 1, corr, md => by
    rw [findPeaksGo]
    split
    · exact Nat.zero_le _
    · simpa using findPeaksGo_length n _ md

lemma findPeaksGo_mem : ∀ (n : ℕ) (corr : List ℚ) (md : ℕ),
    ∀ p ∈ findPeaksGo n corr md,
      p.1 < corr.length ∧ 0 < p.2 ∧ p.2 = corr.getD p.1 0
  | 0, _, _ => by simp [findPeaksGo]
  | n + 1, corr, md => by
    rw [findPeaksGo]
    split
    · simp
    · rename_i hpos
      push_neg at hpos
      intro p hp
      have hcorr : corr ≠ [] := by
        rintro rfl
        simp [argmaxIdx] at hpos
      rcases List.mem_cons.mp hp with h | h
      · subst h
        exact ⟨argmaxIdx_lt_length hcorr, hpos, rfl⟩
      · obtain ⟨h1, h2, h3⟩ := findPeaksGo_mem n _ md p h
        rw [zeroRange_length] at h1
        rw [zeroRange_getD _ _ _ _ h1] at h3
        refine ⟨h1, h2, ?_⟩
        by_cases hin : argmaxIdx corr - md ≤ p.1 ∧ p.1 < min corr.length (argmaxIdx corr + md)
        · rw [if_pos hin] at h3
          exact absurd h3.symm (ne_of_lt h2)
        · rwa [if_neg hin] at h3

lemma findPeaksGo_pairwise : ∀ (n : ℕ) (corr : List ℚ) (md : ℕ),
    List.Pairwise
      (fun p q => q.2 ≤ p.2 ∧ (p.1 + md ≤ q.1 ∨ q.1 + md ≤ p.1))
      (findPeaksGo n corr md)
  | 0, _, _ => by simp [findPeaksGo]
  | n + 1, corr, md => by
    rw [findPeaksGo]
    split
    · simp
    · rename_i hpos
      push_neg at hpos
      refine List.pairwise_cons.mpr ⟨?_, findPeaksGo_pairwise n _ md⟩
      intro q hq
      obtain ⟨hq1, hq2, hq3⟩ := findPeaksGo_mem n _ md q hq
      rw [zeroRange_length] at hq1
      rw [zeroRange_getD _ _ _ _ hq1] at hq3
      have hnotin : ¬(argmaxIdx corr - md ≤ q.1 ∧
          q.1 < min corr.length (argmaxIdx corr + md)) := by
        intro hin
        rw [if_pos hin] at hq3
        exact absurd hq3.symm (ne_of_lt hq2)
      rw [if_neg hnotin] at hq3
      constructor
      · rw [hq3]
        exact getD_le_argmaxIdx corr q.1 hq1
      · rw [Nat.min_def] at hnotin
        by_cases hc : corr.length ≤ argmaxIdx corr + md <;>
          simp only [hc, if_true, if_false] at hnotin <;> omega

/-! ### Claim C4 -/

/-- Claim C4, amended: `find_peaks(corr, num_peaks, min_distance)` performs
greedy extraction, stops after `num_peaks` peaks or when the remaining
maximum is `≤ 0`; the returned list has non-increasing (not strictly
descending) amplitudes, indices mutually separated by at least
`min_distance`, every returned amplitude positive; and on
`[0,1,0,0,0.5,0,0,0.8,0]` with `num_peaks = 3`, `min_distance = 1` it
returns exactly `[(1,1.0), (7,0.8), (4,0.5)]`. -/
theorem claim4_find_peaks_greedy (corr : List ℚ) (numPeaks minDistance : ℕ)
    (hne : corr ≠ []) :
    find_peaks corr numPeaks minDistance =
      Except.ok (findPeaksGo numPeaks corr minDistance) ∧
    (findPeaksGo numPeaks corr minDistance).length ≤ numPeaks ∧
    (∀ p ∈ findPeaksGo numPeaks corr minDistance, 0 < p.2) ∧
    List.Pairwise
      (fun p q => q.2 ≤ p.2 ∧
        (p.1 + minDistance ≤ q.1 ∨ q.1 + minDistance ≤ p.1))
      (findPeaksGo numPeaks corr minDistance) ∧
    find_peaks [0, 1, 0, 0, (1 : ℚ)/2, 0, 0, 4/5, 0] 3 1 =
      Except.ok [(1, 1), (7, 4/5), (4, 1/2)] := by
  refine ⟨?_, findPeaksGo_length _ _ _,
    fun p hp => (findPeaksGo_mem _ _ _ p hp).2.1,
    findPeaksGo_pairwise _ _ _, ?_⟩
  · rw [find_peaks, if_neg]
    simp [hne]
  · rw [find_peaks, if_neg (by simp)]
    norm_num [findPeaksGo, argmaxIdx, zeroRange, List.range_succ]

/-- Claim C4, witness: the general part of the theorem applied to the
spec's own example array. -/
theorem claim4_find_peaks_greedy_witness :
    find_peaks [0, 1, 0, 0, (1 : ℚ)/2, 0, 0, 4/5, 0] 3 1 =
      Except.ok (findPeaksGo 3 [0, 1, 0, 0, (1 : ℚ)/2, 0, 0, 4/5, 0] 1) ∧
    (findPeaksGo 3 [0, 1, 0, 0, (1 : ℚ)/2, 0, 0, 4/5, 0] 1).length ≤ 3 :=
  ⟨(claim4_find_peaks_greedy [0, 1, 0, 0, (1 : ℚ)/2, 0, 0, 4/5, 0] 3 1
      (by simp)).1,
   (claim4_find_peaks_greedy [0, 1, 0, 0, (1 : ℚ)/2, 0, 0, 4/5, 0] 3 1
      (by simp)).2.1⟩

/-- Claim C4, counterexample to the claim as stated: on `[1,0,0,1]` with
`num_peaks = 2`, `min_distance = 1` the code returns two peaks of equal
amplitude `1.0`, so the output is not strictly amplitude-descending. -/
theorem claim4_counterexample :
    find_peaks [1, 0, 0, (1 : ℚ)] 2 1 = Except.ok [(0, 1), (3, 1)] ∧
    ¬ List.Pairwise (fun p q : ℕ × ℚ => q.2 < p.2) [(0, 1), (3, 1)] := by
  constructor
  · rw [find_peaks, if_neg (by simp)]
    norm_num [findPeaksGo, argmaxIdx, zeroRange, List.range_succ]
  · intro h
    have := List.pairwise_cons.mp h
    have h1 := this.1 (3, 1) (by simp)
    exact absurd h1 (lt_irrefl _)

/-! ### Claim C5 -/

lemma le_two_pow_clog2Fuel : ∀ (fuel n : ℕ), n ≤ fuel → n ≤ 2 ^ clog2Fuel fuel n
  | 0, n, h => by
    have hn : n = 0 := Nat.le_zero.mp h
    subst hn
    exact Nat.zero_le _
  | fuel + 1, n, h => by
    rw [clog2Fuel]
    split
    · rename_i h1
      calc n ≤ 1 := h1
        _ ≤ 2 ^ 0 := by norm_num
    · rename_i h1
      push_neg at h1
      have hrec : (n + 1) / 2 ≤ fuel := by omega
      have ih := le_two_pow_clog2Fuel fuel ((n + 1) / 2) hrec
      calc n ≤ 2 * ((n + 1) / 2) := by omega
        _ ≤ 2 * 2 ^ clog2Fuel fuel ((n + 1) / 2) := by omega
        _ = 2 ^ (clog2Fuel fuel ((n + 1) / 2) + 1) := by
            rw [pow_succ]
            ring

lemma le_nextPow2 (n : ℕ) : n ≤ nextPow2 n :=
  le_two_pow_clog2Fuel n n (le_refl n)

/-- Claim C5: for every non-empty reference and recording,
`cross_correlation(ref, sig)` returns a correlation array of length
`len(sig) + len(ref) - 1` (the FFT padding is trimmed away), and the
returned index and value are the global maximum of that array. -/
theorem claim5_cross_correlation_shape (ref sig : List ℚ)
    (href : ref ≠ []) (hsig : sig ≠ []) :
    (cross_correlation ref sig).2.2.length = sig.length + ref.length - 1 ∧
    (cross_correlation ref sig).1 < (cross_correlation ref sig).2.2.length ∧
    (∀ j < (cross_correlation ref sig).2.2.length,
      (cross_correlation ref sig).2.2.getD j 0 ≤
        (cross_correlation ref sig).2.2.getD (cross_correlation ref sig).1 0) ∧
    (cross_correlation ref sig).2.1 =
      (cross_correlation ref sig).2.2.getD (cross_correlation ref sig).1 0 := by
  have h1 : 0 < sig.length := List.length_pos.mpr hsig
  have h2 : 0 < ref.length := List.length_pos.mpr href
  simp only [cross_correlation]
  set n := sig.length + ref.length - 1 with hn
  set corr := ((List.range (nextPow2 n)).map
    (fun k => circCorr ref sig (nextPow2 n) k)).take n with hcorr
  have hlen : corr.length = n := by
    rw [hcorr, List.length_take, List.length_map, List.length_range]
    exact Nat.min_eq_left (le_nextPow2 n)
  have hcne : corr ≠ [] := by
    intro h
    rw [h] at hlen
    simp at hlen
    omega
  exact ⟨hlen, argmaxIdx_lt_length hcne,
    fun j hj => getD_le_argmaxIdx corr j hj, trivial⟩

/-- Claim C5, witness: on `ref = [1]`, `sig = [1]` the correlation array has
the predicted length `1 + 1 - 1 = 1` and the peak index is inside it. -/
theorem claim5_cross_correlation_shape_witness :
    (cross_correlation [1] [(1 : ℚ)]).2.2.length = 1 ∧
    (cross_correlation [1] [(1 : ℚ)]).1 < 1 := by
  have h := claim5_cross_correlation_shape [1] [(1 : ℚ)] (by simp) (by simp)
  have h1 : (cross_correlation [1] [(1 : ℚ)]).2.2.length = 1 := by
    simpa using h.1
  exact ⟨h1, h1 ▸ h.2.1⟩

/-! ### Claim C6 -/

/-- Claim C6: `parabolic_interpolate` returns `(2.0, 10.0)` exactly on the
symmetric peak `[0,9,10,9,0]` at index 2; on `[0,2,2,0]` at index 1 it
returns refined index `1.5` with refined value `≥ 2.0`; whenever the
three-point curvature denominator `2*(left - 2*center + right)` has
absolute value below `1e-12` it falls back to the unrefined
`(index, corr[index])`; and at array boundaries the missing neighbor is
replaced by the center sample. -/
theorem claim6_parabolic_interpolate_spec :
    parabolic_interpolate [0, 9, 10, 9, (0 : ℚ)] 2 = (2, 10) ∧
    (parabolic_interpolate [0, 2, 2, (0 : ℚ)] 1).1 = 3/2 ∧
    2 ≤ (parabolic_interpolate [0, 2, 2, (0 : ℚ)] 1).2 ∧
    (∀ (corr : List ℚ) (index : ℕ), |denomOf corr index| < 1 / 10 ^ 12 →
      parabolic_interpolate corr index = ((index : ℚ), corr.getD index 0)) ∧
    (∀ corr : List ℚ, leftOf corr 0 = corr.getD 0 0) ∧
    (∀ corr : List ℚ, corr ≠ [] →
      rightOf corr (corr.length - 1) = corr.getD (corr.length - 1) 0) := by
  refine ⟨?_, ?_, ?_, ?_, ?_, ?_⟩
  · norm_num [parabolic_interpolate, leftOf, rightOf]
  · norm_num [parabolic_interpolate, leftOf, rightOf]
  · norm_num [parabolic_interpolate, leftOf, rightOf]
  · intro corr index h
    rw [denomOf] at h
    simp only [parabolic_interpolate]
    rw [if_pos h]
  · intro corr
    simp [leftOf]
  · intro corr hne
    have hlen : 0 < corr.length := List.length_pos.mpr hne
    rw [rightOf, if_neg (by omega)]

/-- Claim C6, witness: the degenerate-curvature fallback applied to the
concrete array `[0,1,2]` at index 1 (denominator exactly 0), and the right
boundary clamp applied to `[0,1]`. -/
theorem claim6_parabolic_interpolate_spec_witness :
    parabolic_interpolate [0, 1, (2 : ℚ)] 1 = (1, 1) ∧
    rightOf [0, (1 : ℚ)] 1 = [0, (1 : ℚ)].getD 1 0 := by
  constructor
  · have h := claim6_parabolic_interpolate_spec.2.2.2.1 [0, 1, (2 : ℚ)] 1
      (by norm_num [denomOf, leftOf, rightOf])
    simpa using h
  · have h := claim6_parabolic_interpolate_spec.2.2.2.2.2 [0, (1 : ℚ)]
      (by simp)
    simpa using h

/-! ### Claim C10 -/

lemma maxAbs_foldl_scale (l : List ℚ) (c : ℚ) (hc : 0 ≤ c) :
    ∀ a : ℚ, (l.map (fun s => s * c)).foldl (fun m x => max m |x|) (a * c) =
      l.foldl (fun m x => max m |x|) a * c := by
  induction l with
  | nil => intro a; simp
  | cons x xs ih =>
    intro a
    simp only [List.map_cons, List.foldl_cons]
    rw [abs_mul, abs_of_nonneg hc, ← max_mul_of_nonneg _ _ hc, ih]

lemma maxAbs_map_scale (l : List ℚ) (c : ℚ) (hc : 0 ≤ c) :
    maxAbs (l.map (fun s => s * c)) = maxAbs l * c := by
  have h := maxAbs_foldl_scale l c hc 0
  rw [zero_mul] at h
  exact h

/-- Claim C10: `normalize(signal, peak)` returns the all-zero waveform of
the same length when the maximum absolute sample is below `1e-10`;
otherwise every output sample equals `signal[i] / max_abs * peak` and the
output's maximum absolute sample equals `peak` (for the documented
nonnegative peak targets); concretely `normalize([1,2,3,4,5], peak=1.0)`
has maximum element exactly `1.0` and first element exactly `0.2`. -/
theorem claim10_normalize_spec (signal : List ℚ) (peak : ℚ)
    (hne : signal ≠ []) (hpk : 0 ≤ peak) :
    (maxAbs signal < 1 / 10 ^ 10 →
      normalize signal peak = List.replicate signal.length 0) ∧
    (¬(maxAbs signal < 1 / 10 ^ 10) →
      normalize signal peak = signal.map (fun s => s / maxAbs signal * peak) ∧
      maxAbs (normalize signal peak) = peak) ∧
    maxAbs (normalize [1, 2, 3, 4, (5 : ℚ)] 1) = 1 ∧
    (normalize [1, 2, 3, 4, (5 : ℚ)] 1).getD 0 0 = 1/5 ∧
    (normalize [1, 2, 3, 4, (5 : ℚ)] 1).getD 4 0 = 1 := by
  refine ⟨?_, ?_, ?_, ?_, ?_⟩
  · intro h
    rw [normalize, if_pos h]
  · intro h
    have hm : (0 : ℚ) < maxAbs signal := by
      have : (0 : ℚ) < 1 / 10 ^ 10 := by norm_num
      linarith [not_lt.mp h]
    have hmap : (fun s : ℚ => s / maxAbs signal * peak) =
        (fun s : ℚ => s * (peak / maxAbs signal)) := by
      funext s
      field_simp
    constructor
    · rw [normalize, if_neg h]
    · rw [normalize, if_neg h, hmap,
        maxAbs_map_scale _ _ (div_nonneg hpk (le_of_lt hm)),
        mul_div_assoc', mul_comm, mul_div_assoc, div_self (ne_of_gt hm), mul_one]
  · norm_num [normalize, maxAbs, abs, max_def]
  · norm_num [normalize, maxAbs, abs, max_def]
  · norm_num [normalize, maxAbs, abs, max_def]

/-- Claim C10, witness: the silent branch threshold and the rescaling
branch evaluated through the theorem at `signal = [1,2,3,4,5]`,
`peak = 1`. -/
theorem claim10_normalize_spec_witness :
    maxAbs (normalize [1, 2, 3, 4, (5 : ℚ)] 1) = 1 ∧
    (normalize [1, 2, 3, 4, (5 : ℚ)] 1).getD 0 0 = 1/5 :=
  ⟨(claim10_normalize_spec [1, 2, 3, 4, (5 : ℚ)] 1 (by simp) (by norm_num)).2.2.1,
   (claim10_normalize_spec [1, 2, 3, 4, (5 : ℚ)] 1 (by simp)
      (by norm_num)).2.2.2.1⟩

/-! ### Claim C7 -/

/-- Claim C7, amended: `time_of_flight_s = refined_lag / sample_rate -
system_latency_s`; `distance_m = sound_speed * time_of_flight_s / 2` with
sound speed 343 for air, 1480 for water, 343 for unknown media; when
smoothing is disabled or `filter_size ≤ 1` the smoothed distance equals the
raw distance; when smoothing is enabled and `filter_size > 1` the new
distance is pushed into the smoothing buffer (resized when `filter_size`
changed) and the smoothed distance is the arithmetic mean of the buffer's
contents. -/
theorem claim7_distance_conversion (refinedLag sampleRate latencyS : ℚ)
    (medium : String) (enableSmoothing : Bool) (filterSize : ℤ)
    (st : SmoothingState) :
    soundSpeed "air" = 343 ∧
    soundSpeed "water" = 1480 ∧
    (medium ≠ "air" → medium ≠ "water" → soundSpeed medium = 343) ∧
    (measureDistanceFinish refinedLag sampleRate latencyS medium
        enableSmoothing filterSize st).1.time_of_flight_s =
      refinedLag / sampleRate - latencyS ∧
    (measureDistanceFinish refinedLag sampleRate latencyS medium
        enableSmoothing filterSize st).1.distance_m =
      soundSpeed medium *
        (measureDistanceFinish refinedLag sampleRate latencyS medium
          enableSmoothing filterSize st).1.time_of_flight_s / 2 ∧
    (filterSize ≤ 1 ∨ enableSmoothing = false →
      (measureDistanceFinish refinedLag sampleRate latencyS medium
        enableSmoothing filterSize st).1.smoothed_distance_m =
      (measureDistanceFinish refinedLag sampleRate latencyS medium
        enableSmoothing filterSize st).1.distance_m) ∧
    (enableSmoothing = true → 1 < filterSize →
      (measureDistanceFinish refinedLag sampleRate latencyS medium
          enableSmoothing filterSize st).2 =
        smoothingAppend
          (if st.maxlen ≠ filterSize.toNat then setSmoothingBufferSize st filterSize
           else st)
          (soundSpeed medium * (refinedLag / sampleRate - latencyS) / 2) ∧
      (measureDistanceFinish refinedLag sampleRate latencyS medium
          enableSmoothing filterSize st).1.smoothed_distance_m =
        (measureDistanceFinish refinedLag sampleRate latencyS medium
            enableSmoothing filterSize st).2.data.sum /
        (measureDistanceFinish refinedLag sampleRate latencyS medium
            enableSmoothing filterSize st).2.data.length ∧
      0 < (measureDistanceFinish refinedLag sampleRate latencyS medium
            enableSmoothing filterSize st).2.data.length) := by
  have hsmooth : ∀ (b : SmoothingState) (x : ℚ), 1 ≤ b.maxlen →
      0 < (smoothingAppend b x).data.length := by
    intro b x hb
    simp only [smoothingAppend, List.length_drop, List.length_append,
      List.length_cons, List.length_nil]
    omega
  refine ⟨rfl, rfl, ?_, ?_, ?_, ?_, ?_⟩
  · intro h1 h2
    rw [soundSpeed, if_neg (by simpa using h1), if_neg (by simpa using h2)]
  · rw [measureDistanceFinish]
    split <;> rfl
  · rw [measureDistanceFinish]
    split <;> rfl
  · intro h
    rw [measureDistanceFinish]
    rw [if_neg]
    rintro ⟨hb, hfs⟩
    rcases h with h | h
    · omega
    · rw [h] at hb
      exact Bool.false_ne_true hb
  · intro hb hfs
    have hmax : 1 ≤ (if st.maxlen ≠ filterSize.toNat
        then setSmoothingBufferSize st filterSize else st).maxlen := by
      split
      · simp only [setSmoothingBufferSize]
        omega
      · rename_i heq
        push_neg at heq
        rw [heq]
        omega
    rw [measureDistanceFinish]
    rw [if_pos ⟨hb, hfs⟩]
    have hpos := hsmooth _ (soundSpeed medium * (refinedLag / sampleRate - latencyS) / 2) hmax
    refine ⟨rfl, ?_, hpos⟩
    simp only
    rw [if_pos hpos]

/-- Claim C7, witness: air medium, smoothing enabled with
`filter_size = 3` and a buffer holding one earlier distance. -/
theorem claim7_distance_conversion_witness :
    (measureDistanceFinish 0 48000 0 "air" true 3
        { maxlen := 3, data := [10] }).1.time_of_flight_s = 0 - 0 ∧
    0 < (measureDistanceFinish 0 48000 0 "air" true 3
        { maxlen := 3, data := [10] }).2.data.length := by
  have h := claim7_distance_conversion 0 48000 0 "air" true 3
    { maxlen := 3, data := [10] }
  refine ⟨?_, (h.2.2.2.2.2.2 rfl (by norm_num)).2.2⟩
  have h4 := h.2.2.2.1
  rw [h4]
  norm_num

/-- Claim C7, counterexample to the claim as stated: with smoothing
disabled (`enable_smoothing=False`) and `filter_size = 3 > 1`, the smoothed
distance equals the raw distance (0 here) and is not the mean of the
pushed-into buffer (which would be 5 with an earlier distance of 10 in the
buffer). -/
theorem claim7_counterexample :
    (measureDistanceFinish 0 48000 0 "air" false 3
        { maxlen := 3, data := [10] }).1.smoothed_distance_m = 0 ∧
    (smoothingAppend { maxlen := 3, data := [10] } 0).data.sum /
      ((smoothingAppend { maxlen := 3, data := [10] } 0).data.length : ℚ) = 5 ∧
    (0 : ℚ) ≠ 5 := by
  refine ⟨?_, ?_, by norm_num⟩
  · rw [measureDistanceFinish, if_neg (by simp)]
    simp [soundSpeed]
  · norm_num [smoothingAppend]

/-! ### Claim C8 -/

set_option maxHeartbeats 1600000 in
/-- Claim C8: `measure_distance` raises a validation error, before any
audio playback or recording side effect, whenever the chirp duration is
non-positive or above 1 s, a frequency is non-positive, the frequencies
are inverted, the amplitude is outside the unit interval, the filter size
is negative, `min_distance_m ≥ max_distance_m`, or `extra_record_seconds`
is negative. -/
theorem claim8_validation_rejects (chirp : ChirpConfig) (filterSize : ℤ)
    (minDistance maxDistance : ℚ) (extra : Option ℚ)
    (h : chirp.duration ≤ 0 ∨ 1 < chirp.duration ∨
      chirp.start_freq ≤ 0 ∨ chirp.end_freq ≤ 0 ∨
      chirp.end_freq ≤ chirp.start_freq ∨
      chirp.amplitude < 0 ∨ 1 < chirp.amplitude ∨
      filterSize < 0 ∨ maxDistance ≤ minDistance ∨
      (∃ e, extra = some e ∧ e < 0)) :
    (validateMeasureDistance chirp filterSize minDistance maxDistance
      extra).isSome = true ∧
    measureDistanceStartsAudio chirp filterSize minDistance maxDistance
      extra = false := by
  have key : (validateMeasureDistance chirp filterSize minDistance maxDistance
      extra).isSome = true := by
    cases hv : validateMeasureDistance chirp filterSize minDistance maxDistance
        extra with
    | some v => rfl
    | none =>
      exfalso
      unfold validateMeasureDistance at hv
      split_ifs at hv with h1 h2 h3 h4 h5 h6 h7 h8 h9 <;>
        try exact Option.some_ne_none _ hv
      push_neg at h5
      rcases h with h | h | h | h | h | h | h | h | h | ⟨e, he, hlt⟩
      · exact absurd h h1
      · exact absurd h h2
      · exact h3 (Or.inl h)
      · exact h3 (Or.inr h)
      · exact absurd h h4
      · linarith [h5.1]
      · linarith [h5.2]
      · exact absurd h h6
      · exact absurd h h9
      · subst he
        simp [hlt] at hv
  refine ⟨key, ?_⟩
  rw [measureDistanceStartsAudio]
  cases hv : validateMeasureDistance chirp filterSize minDistance maxDistance
      extra with
  | none => rw [hv] at key; simp at key
  | some v => rfl

/-- Claim C8, witness: a non-positive chirp duration is rejected before the
audio step. -/
theorem claim8_validation_rejects_witness :
    (validateMeasureDistance ⟨1000, 10000, -1, 1/2, 0⟩ 3 0 17 none).isSome =
      true ∧
    measureDistanceStartsAudio ⟨1000, 10000, -1, 1/2, 0⟩ 3 0 17 none =
      false :=
  claim8_validation_rejects ⟨1000, 10000, -1, 1/2, 0⟩ 3 0 17 none
    (Or.inl (by norm_num))

/-! ### Claim C9 -/

lemma aggregateLatencies_used (arr : List ℚ) :
    (aggregateLatencies arr).latencies_used_seconds =
      if 0 < npMedian (arr.map (fun x => |x - npMedian arr|)) then
        arr.filter (fun x => decide (|x - npMedian arr| ≤
          7/2 * npMedian (arr.map (fun y => |y - npMedian arr|))))
      else arr := rfl

lemma aggregateLatencies_latency (arr : List ℚ) :
    (aggregateLatencies arr).latency_seconds =
      npMedian (aggregateLatencies arr).latencies_used_seconds := rfl

lemma aggregateLatencies_var (arr : List ℚ) :
    (aggregateLatencies arr).latency_var_seconds =
      if 1 < (aggregateLatencies arr).latencies_used_seconds.length then
        popVariance (aggregateLatencies arr).latencies_used_seconds
      else 0 := rfl

lemma aggregateLatencies_raw (arr : List ℚ) :
    (aggregateLatencies arr).latencies_seconds = arr := rfl

lemma aggregateLatencies_rawMedian (arr : List ℚ) :
    (aggregateLatencies arr).latency_raw_median_seconds = npMedian arr := rfl

lemma aggregateLatencies_mad (arr : List ℚ) :
    (aggregateLatencies arr).latency_mad_seconds =
      npMedian (arr.map (fun x => |x - npMedian arr|)) := rfl

/-- Claim C9: in `measure_latency`'s aggregation over the kept per-cycle
latencies, with raw median `m` and MAD `d`: when `d > 0` the inlier subset
is exactly the samples within `3.5 * d` of `m`, and when `d` is not
positive all samples are kept; the reported latency is the median of the
inlier subset; the reported spread (recorded here as the variance, the
square of `np.std`) is the population variance of that subset, and 0 when
it has at most one element; and both the raw per-run values and the
filtered subset are retained in the returned record. -/
theorem claim9_latency_aggregation (arr : List ℚ) (hne : arr ≠ []) :
    (0 < npMedian (arr.map (fun x => |x - npMedian arr|)) →
      (aggregateLatencies arr).latencies_used_seconds =
        arr.filter (fun x => decide (|x - npMedian arr| ≤
          7/2 * npMedian (arr.map (fun y => |y - npMedian arr|)))) ∧
      (∀ x : ℚ, x ∈ (aggregateLatencies arr).latencies_used_seconds ↔
        x ∈ arr ∧ |x - npMedian arr| ≤
          7/2 * npMedian (arr.map (fun y => |y - npMedian arr|)))) ∧
    (¬ 0 < npMedian (arr.map (fun x => |x - npMedian arr|)) →
      (aggregateLatencies arr).latencies_used_seconds = arr) ∧
    (aggregateLatencies arr).latency_seconds =
      npMedian (aggregateLatencies arr).latencies_used_seconds ∧
    ((aggregateLatencies arr).latencies_used_seconds.length ≤ 1 →
      (aggregateLatencies arr).latency_var_seconds = 0) ∧
    (1 < (aggregateLatencies arr).latencies_used_seconds.length →
      (aggregateLatencies arr).latency_var_seconds =
        popVariance (aggregateLatencies arr).latencies_used_seconds) ∧
    (aggregateLatencies arr).latencies_seconds = arr ∧
    (aggregateLatencies arr).latency_raw_median_seconds = npMedian arr ∧
    (aggregateLatencies arr).latency_mad_seconds =
      npMedian (arr.map (fun x => |x - npMedian arr|)) := by
  refine ⟨?_, ?_, aggregateLatencies_latency arr, ?_, ?_,
    aggregateLatencies_raw arr, aggregateLatencies_rawMedian arr,
    aggregateLatencies_mad arr⟩
  · intro hmad
    have hu := aggregateLatencies_used arr
    rw [if_pos hmad] at hu
    refine ⟨hu, ?_⟩
    intro x
    rw [hu, List.mem_filter]
    simp
  · intro hmad
    have hu := aggregateLatencies_used arr
    rw [if_neg hmad] at hu
    exact hu
  · intro hle
    rw [aggregateLatencies_var arr, if_neg (by omega)]
  · intro hgt
    rw [aggregateLatencies_var arr, if_pos hgt]

/-- Claim C9, witness: on the kept latencies `[0, 0, 10]` the MAD is 0, so
every sample is retained and the reported latency is the median of the
whole list. -/
theorem claim9_latency_aggregation_witness :
    (aggregateLatencies [0, 0, (10 : ℚ)]).latencies_used_seconds =
      [0, 0, (10 : ℚ)] ∧
    (aggregateLatencies [0, 0, (10 : ℚ)]).latency_seconds =
      npMedian [0, 0, (10 : ℚ)] := by
  have h := claim9_latency_aggregation [0, 0, (10 : ℚ)] (by simp)
  have hmad : ¬ 0 < npMedian ([0, 0, (10 : ℚ)].map
      (fun x => |x - npMedian [0, 0, (10 : ℚ)]|)) := by
    norm_num [npMedian, sortQ, insertSorted, abs]
  have hused := h.2.1 hmad
  exact ⟨hused, by rw [h.2.2.1, hused]⟩

/-! ### Claim C2 -/

/-- Claim C2, amended: when the ranging window of `measure_distance` is
degenerate (`end_idx ≤ start_idx + 2`) the end index is reset to
`len(corr) - 2`; when the resulting window is non-empty but no peaks are
found, the policy falls back to the window's raw argmax; but when the
window itself is empty, `measure_distance` raises a `ValueError` rather
than falling back. The calibration policy
(`_pick_latency_from_recording`) never fails: on an empty window it falls
back to the argmax of the full correlation array. -/
theorem claim2_empty_window_policies :
    (∀ (corr : List ℚ) (refOffset : ℕ)
       (sampleRate latencyS minDistance : ℚ) (maxDistance : Option ℚ)
       (speed : ℚ),
       rangingWindow corr refOffset sampleRate latencyS minDistance
         maxDistance speed = [] →
       rangingSelect corr refOffset sampleRate latencyS minDistance
         maxDistance speed =
         Except.error
           ("Correlation window is empty; check max_distance/latency")) ∧
    (∀ (corr : List ℚ) (refOffset : ℕ)
       (sampleRate latencyS minDistance : ℚ) (maxDistance : Option ℚ)
       (speed : ℚ),
       rangingWindow corr refOffset sampleRate latencyS minDistance
         maxDistance speed ≠ [] →
       findPeaksGo 15 (rangingWindow corr refOffset sampleRate latencyS
         minDistance maxDistance speed) 50 = [] →
       rangingSelect corr refOffset sampleRate latencyS minDistance
         maxDistance speed =
         Except.ok ((rangingBounds corr.length refOffset sampleRate latencyS
             minDistance maxDistance speed).1 +
           argmaxIdx (rangingWindow corr refOffset sampleRate latencyS
             minDistance maxDistance speed))) ∧
    (∀ (corr : List ℚ) (refOffset : ℕ)
       (sampleRate maxLatencyS minLatencyS : ℚ),
       latencyWindow corr refOffset sampleRate maxLatencyS minLatencyS = [] →
       latencyPick corr refOffset sampleRate maxLatencyS minLatencyS =
         (argmaxIdx corr : ℤ)) := by
  refine ⟨?_, ?_, ?_⟩
  · intro corr refOffset sampleRate latencyS minDistance maxDistance speed h
    rw [rangingWindow] at h
    rw [rangingSelect, if_pos h]
  · intro corr refOffset sampleRate latencyS minDistance maxDistance speed
      hne hpk
    rw [rangingWindow] at hne hpk
    rw [rangingWindow, rangingSelect, if_neg hne, hpk]
    simp
  · intro corr refOffset sampleRate maxLatencyS minLatencyS h
    rw [latencyWindow] at h
    rw [latencyPick, if_pos h]

/-- Claim C2, counterexample to the claim as stated: a concrete call where
the ranging correlation window restricted by latency/min/max distance comes
out empty and `measure_distance`'s selection raises `ValueError` instead of
falling back (correlation array of 5 ones, zero latency, 48 kHz). -/
theorem claim2_counterexample :
    rangingWindow [1, 1, 1, 1, (1 : ℚ)] 0 48000 0 0 none 343 = [] ∧
    rangingSelect [1, 1, 1, 1, (1 : ℚ)] 0 48000 0 0 none 343 =
      Except.error
        ("Correlation window is empty; check max_distance/latency") := by
  have hw : rangingWindow [1, 1, 1, 1, (1 : ℚ)] 0 48000 0 0 none 343 = [] := by
    norm_num [rangingWindow, rangingBounds, pyInt, pySlice]
  exact ⟨hw, by rw [rangingWindow] at hw; rw [rangingSelect, if_pos hw]⟩

/-- Claim C2, witness: the calibration fallback evaluated on a concrete
3-sample correlation whose latency window is empty: the pick is the argmax
of the full array, with no failure. -/
theorem claim2_empty_window_policies_witness :
    latencyWindow [1, 1, (1 : ℚ)] 0 48000 0 0 = [] ∧
    latencyPick [1, 1, (1 : ℚ)] 0 48000 0 0 = (argmaxIdx [1, 1, (1 : ℚ)] : ℤ) := by
  have hw : latencyWindow [1, 1, (1 : ℚ)] 0 48000 0 0 = [] := by
    norm_num [latencyWindow, pyInt, pySlice]
  exact ⟨hw, claim2_empty_window_policies.2.2 [1, 1, (1 : ℚ)] 0 48000 0 0 hw⟩

/-! ### Claim C3 -/

/-- Claim C3, amended: `echopi.io.audio.get_global_stream` satisfies the
keyed-singleton contract — the returned stream's configuration signature
always equals the requested one, and an existing session is closed (before
the new one is opened) exactly when its signature differs from the request.
`echopi.io.audio_safe.get_global_stream` (the one `measure_distance` uses)
does not: once a stream exists it is returned unchanged regardless of the
requested configuration, and nothing is closed. -/
theorem claim3_singleton_keyed (cfg : AudioDeviceConfig)
    (st : Option CfgSignature) (other c0 : AudioDeviceConfig) :
    (getGlobalStreamAudio cfg st).1 = cfgSignature cfg ∧
    (getGlobalStreamAudio cfg st).2.1 = some (cfgSignature cfg) ∧
    ((getGlobalStreamAudio cfg st).2.2 = true ↔
      ∃ old, st = some old ∧ old ≠ cfgSignature cfg) ∧
    getGlobalStreamSafe other (some c0) = (c0, some c0) := by
  cases st with
  | none =>
    refine ⟨rfl, rfl, ?_, rfl⟩
    simp [getGlobalStreamAudio]
  | some old =>
    by_cases h : old = cfgSignature cfg
    · subst h
      refine ⟨?_, ?_, ?_, rfl⟩ <;> simp [getGlobalStreamAudio]
    · refine ⟨?_, ?_, ?_, rfl⟩ <;> simp [getGlobalStreamAudio, h]

/-- Claim C3, witness: the keyed singleton of `io/audio.py` applied at a
concrete configuration and the empty state. -/
theorem claim3_singleton_keyed_witness :
    (getGlobalStreamAudio ⟨none, none, 48000, 1, 1, 2048, none⟩ none).1 =
      cfgSignature ⟨none, none, 48000, 1, 1, 2048, none⟩ :=
  (claim3_singleton_keyed ⟨none, none, 48000, 1, 1, 2048, none⟩ none
    ⟨none, none, 48000, 1, 1, 2048, none⟩
    ⟨none, none, 48000, 1, 1, 2048, none⟩).1

/-- Claim C3, counterexample to the claim as stated: with the `audio_safe`
singleton (used by the ranging path), opening at 48 kHz and then requesting
44.1 kHz returns the old 48 kHz stream — the returned configuration does
not equal the requested one and the old session is not closed. -/
theorem claim3_counterexample :
    (getGlobalStreamSafe ⟨none, none, 44100, 1, 1, 2048, none⟩
        (getGlobalStreamSafe ⟨none, none, 48000, 1, 1, 2048, none⟩ none).2).1 =
      ⟨none, none, 48000, 1, 1, 2048, none⟩ ∧
    (⟨none, none, 48000, 1, 1, 2048, none⟩ : AudioDeviceConfig) ≠
      ⟨none, none, 44100, 1, 1, 2048, none⟩ := by
  refine ⟨rfl, ?_⟩
  intro h
  have := congrArg AudioDeviceConfig.sample_rate h
  simp at this

/-! ### Claim C1 -/

lemma pyUnpack2_length_ne (l : List ℚ) (h : l.length ≠ 2) :
    pyUnpack2 l = Except.error ("unpack mismatch") := by
  match l with
  | [] => rfl
  | [a] => rfl
  | [a, b] => simp at h
  | a :: b :: c :: t => rfl

/-- Claim C1, amended: the destructuring
`recorded, tx_sample_index = stream.play_and_record(...)` in
`measure_distance` fails with an unpacking error whenever the recording
length `len(chirp_tx) + int(extra_record_seconds * sample_rate)` differs
from 2 — in particular for every chirp of at least 3 samples — because
`audio_safe.PersistentAudioStream.play_and_record` returns a single array,
not a pair. (The length can equal 2: a 2-sample chirp with zero extra
recording, so the original "never equal to 2 for any positive chirp
duration" is too strong.) -/
theorem claim1_audio_unpack_fails (chirpTx : List ℚ)
    (extraRecordSeconds : ℚ) (sampleRate : ℕ) (mic : ℕ → ℚ)
    (hex : 0 ≤ extraRecordSeconds)
    (hlen : chirpTx.length +
      (pyInt (extraRecordSeconds * sampleRate)).toNat ≠ 2) :
    measureDistanceAudioStep chirpTx extraRecordSeconds sampleRate mic =
      Except.error ("unpack mismatch") := by
  rw [measureDistanceAudioStep, safePlayAndRecord, if_neg (not_lt.mpr hex)]
  exact pyUnpack2_length_ne _ (by simpa using hlen)

/-- Claim C1, witness: a 3-sample chirp with zero extra recording makes the
unpack fail. -/
theorem claim1_audio_unpack_fails_witness :
    measureDistanceAudioStep [0, 0, (0 : ℚ)] 0 48000 (fun _ => 0) =
      Except.error ("unpack mismatch") :=
  claim1_audio_unpack_fails [0, 0, 0] 0 48000 (fun _ => 0) (le_refl 0)
    (by norm_num [pyInt])

/-- Claim C1, counterexample to the claim as stated: the positive chirp
duration `1/24000` s at 48 kHz yields a 2-sample chirp; with
`extra_record_seconds = 0` the recording has exactly 2 samples and the
destructuring succeeds instead of raising an unpacking error. -/
theorem claim1_counterexample :
    0 < ((1 : ℚ)/24000) ∧
    chirpLen 48000 ((1 : ℚ)/24000) = 2 ∧
    measureDistanceAudioStep
        (List.replicate (chirpLen 48000 ((1 : ℚ)/24000)) 0) 0 48000
        (fun _ => 37) = Except.ok (37, 37) := by
  have hc : chirpLen 48000 ((1 : ℚ)/24000) = 2 := by
    norm_num [chirpLen, pyInt]
    rfl
  refine ⟨by norm_num, hc, ?_⟩
  rw [hc]
  norm_num [measureDistanceAudioStep, safePlayAndRecord, pyInt,
    List.range_succ]
  rfl

end EchoPi
